import Mathlib

/-!
# Gloob language core: a shallow embedding of the interpreter

This file embeds the data model and the tree-walking evaluator of the Gloob
interpreter (packages `lexer`/`parser`, `interpreter`, `scope`, `values`,
`builtins`, `imports`) and proves properties of the evaluation rules:
user-function calls and closures, 1-based indexing, loop/return/break
sentinel propagation, range loops, logical operators, numeric operators,
scope declaration/assignment, import resolution, object construction and
the array `pop` method.

Modeling conventions:
* Go `float64` numerics are modeled as exact unreduced fractions of `Int`
  (`GoNum`); keeping fractions unnormalized avoids `Nat.gcd`, so all
  arithmetic reduces in the kernel.  Floating-point rounding is not modeled.
* Go strings are raw byte sequences (`GoString := List Nat`), matching the
  byte-based `len` and indexing of the interpreter.
* The mutable scope tree is a heap of scope records addressed by index
  (`Heap := List ScopeData`); `NewScope` appends a record.
* `os.Exit(1)` error paths are the `Outcome.fatal` result; a Go runtime
  panic (e.g. integer division by zero inside `%`) is `Outcome.goPanic`.
* Since loops may diverge, evaluation takes a fuel parameter and returns
  `Outcome.timeout` when it runs out; fuel is decremented on every
  recursive step, so the function is structurally recursive.
-/

namespace Gloob

/-- Exact-fraction model of Go `float64` (`values.NumericValue.Value`).
The denominator is kept positive and fractions are not reduced. -/
structure GoNum where
  num : Int
  den : Int
deriving DecidableEq, Repr

/-- Embed an integer literal as a numeric value. -/
def gn (n : Int) : GoNum := ⟨n, 1⟩

/-- Go `+` on float64. -/
def GoNum.add (a b : GoNum) : GoNum := ⟨a.num * b.den + b.num * a.den, a.den * b.den⟩

/-- Go `-` on float64. -/
def GoNum.sub (a b : GoNum) : GoNum := ⟨a.num * b.den - b.num * a.den, a.den * b.den⟩

/-- Go `*` on float64. -/
def GoNum.mul (a b : GoNum) : GoNum := ⟨a.num * b.num, a.den * b.den⟩

/-- Go `/` on float64 (caller checks for a zero divisor first).
The sign of the resulting denominator is repaired to keep it positive. -/
def GoNum.div (a b : GoNum) : GoNum :=
  if a.den * b.num < 0 then ⟨-(a.num * b.den), -(a.den * b.num)⟩
  else ⟨a.num * b.den, a.den * b.num⟩

/-- Go `x == 0` on float64. -/
def GoNum.isZero (a : GoNum) : Bool := a.num == 0

/-- Go `==` on float64 (value equality of fractions). -/
def GoNum.eqb (a b : GoNum) : Bool := a.num * b.den == b.num * a.den

/-- Go `<` on float64 (valid because denominators are positive). -/
def GoNum.ltb (a b : GoNum) : Bool := decide (a.num * b.den < b.num * a.den)

/-- Go `<=` on float64. -/
def GoNum.leb (a b : GoNum) : Bool := decide (a.num * b.den ≤ b.num * a.den)

/-- Go `int(x)` conversion of a float64: truncation toward zero. -/
def GoNum.trunc (a : GoNum) : Int := a.num.tdiv a.den

/-- The mathematical value of a `GoNum`, for specification statements. -/
def GoNum.toRat (a : GoNum) : ℚ := (a.num : ℚ) / (a.den : ℚ)

/-- Go strings are raw byte sequences (`values.StringValue.Value`). -/
abbrev GoString := List Nat

/-- The `parser.NodeType` tags used by the evaluator's runtime dispatch
(`NodeType()` methods in `values`). -/
inductive NodeTag where
  | numeric
  | boolean
  | stringTag
  | nullTag
  | variableDeclaration
  | array
  | object
  | functionDeclaration
  | nativeFunction
  | breakExpression
  | returnValue
deriving DecidableEq, Repr

/-- AST nodes (`parser` package).  Statements and expressions share one type,
as in the Go interface `parser.Statement`.  Nodes not exercised by the
verified claims (member access, imports inside the AST, native-function
nodes) are omitted from this fragment. -/
inductive Expr where
  | numericLit (value : GoNum)
  | booleanLit (value : Bool)
  | stringLit (value : GoString)
  | nullLit
  | identifier (name : String)
  | binary (left : Expr) (operator : String) (right : Expr)
  | assignIdent (name : String) (value : Expr)
  | arrayLit (elements : List Expr)
  | arrayIndex (arrayExpression : Expr) (index : Expr)
  | callExpr (callee : Expr) (args : List Expr)
  | varDecl (constant : Bool) (name : String) (value : Option Expr)
  | funDecl (name : String) (parameters : List String) (body : List Expr)
  | ifStmt (condition : Expr) (body : List Expr)
           (elseIfs : List (Expr × List Expr)) (elseBody : List Expr)
  | loopStmt (isForEach : Bool) (loopVar : String) (condition : Option Expr)
             (fromE : Option Expr) (toE : Option Expr) (increment : Option Expr)
             (body : List Expr)
  | breakExpr
  | returnStmt (value : Option Expr)

/-- Runtime values (`values` package).  `functionV` carries the id of the
captured scope (`FunctionValue.Scope`).  `varDeclV` is the
`NodeVariableDeclaration` descriptor returned by declarations.  Arrays are
carried by value here; the claims proved below do not mutate arrays through
aliases. -/
inductive Value where
  | numericV (value : GoNum)
  | booleanV (value : Bool)
  | stringV (value : GoString)
  | nullV
  | varDeclV (name : String) (value : Value)
  | arrayV (elements : List Value)
  | functionV (identifier : String) (parameters : List String)
              (body : List Expr) (scopeId : Nat)
  | breakV
  | returnV (value : Value)

/-- `NodeType()` dispatch on runtime values. -/
def Value.nodeType : Value → NodeTag
  | .numericV _ => .numeric
  | .booleanV _ => .boolean
  | .stringV _ => .stringTag
  | .nullV => .nullTag
  | .varDeclV _ _ => .variableDeclaration
  | .arrayV _ => .array
  | .functionV _ _ _ _ => .functionDeclaration
  | .breakV => .breakExpression
  | .returnV _ => .returnValue

/-- `interpreter.isTruthy`. -/
def isTruthy : Value → Bool
  | .booleanV b => b
  | .numericV n => !n.isZero
  | .stringV s => s != []
  | .nullV => false
  | _ => true

/-! ## Scopes (`scope` package) -/

/-- One `scope.Scope` record: parent pointer, variable map, constant set.
The Go string-keyed maps are association lists (newest binding replaces
the old one in place). -/
structure ScopeData where
  parent : Option Nat
  vars : List (String × Value)
  constants : List String

/-- The scope tree: records addressed by index; `NewScope` appends. -/
abbrev Heap := List ScopeData

/-- Map lookup (`s.vars[name]`). -/
def mapGet (m : List (String × Value)) (k : String) : Option Value :=
  match m with
  | [] => none
  | (k', v) :: rest => if k' = k then some v else mapGet rest k

/-- Map write (`s.vars[name] = value`): replaces an existing binding,
otherwise appends. -/
def mapSet (m : List (String × Value)) (k : String) (v : Value) :
    List (String × Value) :=
  match m with
  | [] => [(k, v)]
  | (k', v') :: rest => if k' = k then (k, v) :: rest else (k', v') :: mapSet rest k v

/-- `Scope.Declare`: fails with a re-declaration error when the name already
exists in this scope; registers constness; writes the binding. -/
def scopeDeclare (h : Heap) (sid : Nat) (name : String) (value : Value)
    (isConstant : Bool) : Except String Heap :=
  match h[sid]? with
  | none => .error "invalid scope"
  | some sd =>
    if (mapGet sd.vars name).isSome then
      .error "Variable already declared"
    else
      .ok (h.set sid
        { sd with
          constants := if isConstant then name :: sd.constants else sd.constants
          vars := mapSet sd.vars name value })

/-- `Scope.Resolve`: walk the parent chain to the scope defining `name`;
`none` models the fatal "Variable not found" exit.  `fuel` bounds the walk;
in heaps built by the evaluator parents have smaller ids, so
`h.length + 1` steps always suffice. -/
def scopeResolve (h : Heap) : Nat → Nat → String → Option Nat
  | 0, _, _ => none
  | fuel + 1, sid, name =>
    match h[sid]? with
    | none => none
    | some sd =>
      if (mapGet sd.vars name).isSome then some sid
      else
        match sd.parent with
        | some p => scopeResolve h fuel p name
        | none => none

/-- `Scope.Assign`: resolve the defining scope (fatal when there is none),
fail when the name is flagged constant there, else update that scope's
binding in place. -/
def scopeAssign (h : Heap) (sid : Nat) (name : String) (value : Value) :
    Except String Heap :=
  match scopeResolve h (h.length + 1) sid name with
  | none => .error "Variable not found"
  | some d =>
    match h[d]? with
    | none => .error "Variable not found"
    | some sd =>
      if name ∈ sd.constants then .error "Constant cannot be assigned"
      else .ok (h.set d { sd with vars := mapSet sd.vars name value })

/-- `Scope.Get`: resolve, then read the value. -/
def scopeGet (h : Heap) (sid : Nat) (name : String) : Except String Value :=
  match scopeResolve h (h.length + 1) sid name with
  | none => .error "Variable not found"
  | some d =>
    match h[d]? with
    | none => .error "Variable not found"
    | some sd =>
      match mapGet sd.vars name with
      | some v => .ok v
      | none => .error "Variable is not initialized"

/-- The direct map write `s.GetVariables()[name] = value` used by range and
for-each loops to install the loop variable in the current scope, bypassing
`Declare` (no re-declaration or constant check). -/
def scopeSetVarDirect (h : Heap) (sid : Nat) (name : String) (value : Value) :
    Heap :=
  match h[sid]? with
  | none => h
  | some sd => h.set sid { sd with vars := mapSet sd.vars name value }

/-! ## Pure evaluation helpers (value-level parts of `interpreter`) -/

/-- A failing evaluation step: `fatal` prints a diagnostic and exits
(`os.Exit(1)`); `goPanic` is an uncontrolled Go runtime panic. -/
inductive Failure where
  | fatal (msg : String)
  | goPanic (msg : String)
deriving DecidableEq, Repr

/-- `interpreter.evaluateNumericBinaryExpression`.  `/` checks the raw (float)
divisor for zero; `%` converts both sides with `int(...)` truncation and uses
Go's integer remainder, which panics when the truncated divisor is zero. -/
def evaluateNumericBinaryExpression (operator : String) (left right : GoNum) :
    Except Failure Value :=
  match operator with
  | "+" => .ok (.numericV (left.add right))
  | "-" => .ok (.numericV (left.sub right))
  | "*" => .ok (.numericV (left.mul right))
  | "/" =>
    if right.isZero then .error (.fatal "division by zero")
    else .ok (.numericV (left.div right))
  | "%" =>
    if right.trunc = 0 then .error (.goPanic "integer divide by zero")
    else .ok (.numericV (gn (Int.tmod left.trunc right.trunc)))
  | _ => .error (.fatal "Unknown operator")

/-- `interpreter.isComparisonOperator`. -/
def isComparisonOperator (operator : String) : Bool :=
  operator == "==" || operator == "!=" || operator == ">" || operator == ">=" ||
  operator == "<" || operator == "<=" || operator == "&&" || operator == "||"

/-- `interpreter.evaluateLogicalExpression`: coerce both operands with the
truthiness rule and combine. -/
def evaluateLogicalExpression (operator : String) (left right : Value) :
    Except Failure Value :=
  let leftBool := isTruthy left
  let rightBool := isTruthy right
  match operator with
  | "&&" => .ok (.booleanV (leftBool && rightBool))
  | "||" => .ok (.booleanV (leftBool || rightBool))
  | _ => .error (.fatal "Unknown logical operator")

/-- `interpreter.evaluateStringComparison` (byte-wise lexicographic order on
Go strings; only `==`/`!=` are exercised by the claims). -/
def evaluateStringComparison (operator : String) (left right : GoString) :
    Except Failure Value :=
  match operator with
  | "==" => .ok (.booleanV (left == right))
  | "!=" => .ok (.booleanV (left != right))
  | ">" => .ok (.booleanV (decide (right < left)))
  | ">=" => .ok (.booleanV (!decide (left < right)))
  | "<" => .ok (.booleanV (decide (left < right)))
  | "<=" => .ok (.booleanV (!decide (right < left)))
  | _ => .error (.fatal "Unknown string comparison operator")

/-- `interpreter.evaluateNumericComparison`. -/
def evaluateNumericComparison (operator : String) (left right : GoNum) :
    Except Failure Value :=
  match operator with
  | "==" => .ok (.booleanV (left.eqb right))
  | "!=" => .ok (.booleanV (!left.eqb right))
  | ">" => .ok (.booleanV (right.ltb left))
  | ">=" => .ok (.booleanV (right.leb left))
  | "<" => .ok (.booleanV (left.ltb right))
  | "<=" => .ok (.booleanV (left.leb right))
  | _ => .error (.fatal "Unknown numeric comparison operator")

/-- `interpreter.evaluateBooleanComparison`. -/
def evaluateBooleanComparison (operator : String) (left right : Bool) :
    Except Failure Value :=
  match operator with
  | "==" => .ok (.booleanV (left == right))
  | "!=" => .ok (.booleanV (left != right))
  | ">" => .ok (.booleanV (left && !right))
  | ">=" => .ok (.booleanV (left || !right))
  | "<" => .ok (.booleanV (!left && right))
  | "<=" => .ok (.booleanV (!left || right))
  | "&&" => .ok (.booleanV (left && right))
  | "||" => .ok (.booleanV (left || right))
  | _ => .error (.fatal "Unknown boolean comparison operator")

/-- `interpreter.evaluateNullComparison`. -/
def evaluateNullComparison (operator : String) : Except Failure Value :=
  match operator with
  | "==" => .ok (.booleanV true)
  | "!=" => .ok (.booleanV false)
  | _ => .error (.fatal "Cannot use operator with null values")

/-- `interpreter.evaluateComparisonExpression`: logical operators first, then
same-type primitive comparisons, then the mixed-type `==`/`!=` fallback. -/
def evaluateComparisonExpression (operator : String) (left right : Value) :
    Except Failure Value :=
  if operator = "&&" ∨ operator = "||" then
    evaluateLogicalExpression operator left right
  else
    match left, right with
    | .stringV l, .stringV r => evaluateStringComparison operator l r
    | .numericV l, .numericV r => evaluateNumericComparison operator l r
    | .booleanV l, .booleanV r => evaluateBooleanComparison operator l r
    | .nullV, .nullV => evaluateNullComparison operator
    | _, _ =>
      if operator = "==" then .ok (.booleanV false)
      else if operator = "!=" then .ok (.booleanV true)
      else .error (.fatal "Cannot compare mixed types")

/-- Go's display form of a value (`String()` methods), used only by string
concatenation.  Display of numerics and containers is abstracted to a fixed
placeholder; no claim proved here depends on it. -/
def goDisplay : Value → GoString
  | .stringV s => s
  | .booleanV true => [116, 114, 117, 101]
  | .booleanV false => [102, 97, 108, 115, 101]
  | .nullV => [110, 117, 108, 108]
  | _ => [63]

/-- `interpreter.evaluateStringMultiplication`: `strings.Repeat(left,
int(right))`, which panics on a negative repeat count. -/
def evaluateStringMultiplication (left : GoString) (right : GoNum) :
    Except Failure Value :=
  if right.trunc < 0 then .error (.goPanic "strings: negative Repeat count")
  else .ok (.stringV (List.flatten (List.replicate right.trunc.toNat left)))

/-- `interpreter.evaluateStringBinaryExpression`: only `+` (concatenation of
display forms) is defined for string operands. -/
def evaluateStringBinaryExpression (operator : String) (left right : Value) :
    Except Failure Value :=
  match operator with
  | "+" => .ok (.stringV (goDisplay left ++ goDisplay right))
  | _ => .error (.fatal "Unknown operator with string operands")

/-- The operand dispatch of `interpreter.evaluateBinaryExpression`, applied
after both operands have been evaluated: comparison operators first, then
string multiplication, then string concatenation, then numeric arithmetic. -/
def evaluateBinaryOp (operator : String) (left right : Value) :
    Except Failure Value :=
  if isComparisonOperator operator then
    evaluateComparisonExpression operator left right
  else
    match left, right with
    | .stringV l, .numericV r =>
      if operator = "*" then evaluateStringMultiplication l r
      else evaluateStringBinaryExpression operator left right
    | .stringV _, _ => evaluateStringBinaryExpression operator left right
    | _, .stringV _ => evaluateStringBinaryExpression operator left right
    | .numericV l, .numericV r => evaluateNumericBinaryExpression operator l r
    | _, _ => .error (.fatal "Invalid operand types for binary expression")

/-- The value-level part of `interpreter.evaluateArrayIndex`, applied after
the receiver and the index have been evaluated: the index must be numeric,
is truncated with `int(...)` and converted from 1-based to 0-based; strings
index by byte; any other receiver is fatal. -/
def evaluateArrayIndexValue (value : Value) (indexValue : Value) :
    Except Failure Value :=
  match indexValue with
  | .numericV q =>
    let index : Int := q.trunc - 1
    match value with
    | .stringV s =>
      if index < 0 ∨ (s.length : Int) ≤ index then
        .error (.fatal "String index out of bounds")
      else .ok (.stringV [s.getD index.toNat 0])
    | .arrayV elements =>
      if index < 0 ∨ (elements.length : Int) ≤ index then
        .error (.fatal "Array index out of bounds")
      else .ok (elements.getD index.toNat .nullV)
    | _ => .error (.fatal "Cannot index type")
  | _ => .error (.fatal "Index must be numeric")

/-! ## The evaluator (`interpreter.Evaluate` and its helpers)

Evaluation threads the scope heap and consumes one unit of fuel per
recursive step.  All mutually recursive evaluation loops of the Go source
are folded into one structurally recursive function `run` over a `Task`
sum, so that closed runs reduce definitionally. -/

/-- Result of one evaluation (`values.RuntimeValue` plus the updated heap),
a fatal diagnostic exit, a Go runtime panic, or fuel exhaustion. -/
inductive Outcome where
  | ok (value : Value) (heap : Heap)
  | fatal (msg : String)
  | goPanic (msg : String)
  | timeout

/-- Declare each parameter in the fresh function scope
(`funScope.Declare(paramName, args[i], false)`). -/
def declareParams : List String → List Value → Nat → Heap → Except String Heap
  | [], _, _, h => .ok h
  | _, [], _, h => .ok h
  | p :: ps, v :: vs, sid, h =>
    match scopeDeclare h sid p v false with
    | .ok h1 => declareParams ps vs sid h1
    | .error m => .error m

/-- The pending evaluation shapes of the interpreter: a single node
(`Evaluate`), statement sequences (program and `if` bodies), a function
body (`Return` check), a loop body (`Break` check), the four loop forms,
left-to-right evaluation of expression lists, and the else-if chain. -/
inductive Task where
  | evalNode (node : Expr)
  | seqStmts (stmts : List Expr) (result : Value)
  | funcBody (stmts : List Expr) (result : Value)
  | loopBody (stmts : List Expr) (result : Value)
  | whileLoop (cond : Expr) (body : List Expr) (condVal : Value) (result : Value)
  | infiniteLoop (body : List Expr) (result : Value)
  | rangeLoop (loopVar : String) (toV : GoNum) (inc : GoNum)
              (goingForward : Bool) (body : List Expr) (current : GoNum)
              (result : Value)
  | forEachLoop (loopVar : String) (elems : List Value) (body : List Expr)
                (result : Value)
  | evalList (nodes : List Expr) (acc : List Value)
  | elseIfChain (clauses : List (Expr × List Expr)) (elseBody : List Expr)

/-- One evaluation step for a single AST node: the dispatch of
`interpreter.Evaluate` together with the per-node evaluator functions.
`r` is the recursive evaluator (applied to sub-evaluations), which `run`
instantiates with the next-smaller fuel. -/
def evaluateNodeK (r : Task → Nat → Heap → Outcome) (node : Expr) (sid : Nat)
    (h : Heap) : Outcome :=
  match node with
  | .numericLit v => .ok (.numericV v) h
  | .booleanLit b => .ok (.booleanV b) h
  | .stringLit s => .ok (.stringV s) h
  | .nullLit => .ok .nullV h
  | .identifier name =>
    match scopeGet h sid name with
    | .ok v => .ok v h
    | .error m => .fatal m
  | .binary l operator rexp =>
    match r (.evalNode l) sid h with
    | .ok lv h1 =>
      match r (.evalNode rexp) sid h1 with
      | .ok rv h2 =>
        match evaluateBinaryOp operator lv rv with
        | .ok v => .ok v h2
        | .error (.fatal m) => .fatal m
        | .error (.goPanic m) => .goPanic m
      | o => o
    | o => o
  | .assignIdent name valueE =>
    match r (.evalNode valueE) sid h with
    | .ok v h1 =>
      match scopeAssign h1 sid name v with
      | .ok h2 => .ok v h2
      | .error m => .fatal m
    | o => o
  | .arrayLit elements => r (.evalList elements []) sid h
  | .arrayIndex arrE idxE =>
    match r (.evalNode arrE) sid h with
    | .ok av h1 =>
      match r (.evalNode idxE) sid h1 with
      | .ok iv h2 =>
        match evaluateArrayIndexValue av iv with
        | .ok v => .ok v h2
        | .error (.fatal m) => .fatal m
        | .error (.goPanic m) => .goPanic m
      | o => o
    | o => o
  | .callExpr callee args =>
    match r (.evalNode callee) sid h with
    | .ok calleeV h1 =>
      match calleeV with
      | .functionV _ ps body cap =>
        if args.length ≠ ps.length then
          .fatal "Function arity mismatch"
        else
          match r (.evalList args []) sid h1 with
          | .ok (.arrayV argVals) h2 =>
            match declareParams ps argVals h2.length (h2 ++ [⟨some cap, [], []⟩]) with
            | .ok h4 => r (.funcBody body .nullV) h2.length h4
            | .error m => .fatal m
          | .ok _ h2 => .ok .nullV h2
          | o => o
      | _ => .fatal "Cannot call non-function value"
    | o => o
  | .varDecl isConstant name valueE =>
    match
      (match valueE with
       | none => Outcome.ok Value.nullV h
       | some e => r (.evalNode e) sid h) with
    | .ok v h1 =>
      match scopeDeclare h1 sid name v isConstant with
      | .ok h2 => .ok (.varDeclV name v) h2
      | .error m => .fatal m
    | o => o
  | .funDecl name ps body =>
    match scopeDeclare h sid name (Value.functionV name ps body sid) false with
    | .ok h1 => .ok (Value.functionV name ps body sid) h1
    | .error m => .fatal m
  | .ifStmt cond body elseIfs elseBody =>
    match r (.evalNode cond) sid h with
    | .ok cv h1 =>
      if isTruthy cv then r (.seqStmts body .nullV) sid h1
      else r (.elseIfChain elseIfs elseBody) sid h1
    | o => o
  | .loopStmt isForEach loopVar cond fromE toE incE body =>
    if isForEach then
      match fromE with
      | none => .fatal "For-each loop requires an array"
      | some fe =>
        match r (.evalNode fe) sid h with
        | .ok iterable h1 =>
          match iterable with
          | .arrayV elems => r (.forEachLoop loopVar elems body .nullV) sid h1
          | _ => .fatal "For-each loop requires an array"
        | o => o
    else if loopVar ≠ "" then
      match fromE, toE with
      | some fe, some te =>
        match r (.evalNode fe) sid h with
        | .ok fv h1 =>
          match r (.evalNode te) sid h1 with
          | .ok tv h2 =>
            match fv, tv with
            | .numericV fromN, .numericV toN =>
              match
                (match incE with
                 | none => Outcome.ok (Value.numericV (gn 1)) h2
                 | some ie => r (.evalNode ie) sid h2) with
              | .ok (.numericV incN) h3 =>
                let h4 := scopeSetVarDirect h3 sid loopVar (.numericV fromN)
                let goingForward :=
                  match incE with
                  | some _ => (gn 0).ltb incN
                  | none => fromN.leb toN
                r (.rangeLoop loopVar toN incN goingForward body fromN .nullV) sid h4
              | .ok _ _ => .fatal "Range loop increment must be numeric"
              | o => o
            | _, _ => .fatal "Range loop requires numeric values"
          | o => o
        | o => o
      | _, _ => .fatal "Range loop requires numeric values"
    else
      match cond with
      | none => r (.infiniteLoop body .nullV) sid h
      | some c =>
        match r (.evalNode c) sid h with
        | .ok cv h1 => r (.whileLoop c body cv .nullV) sid h1
        | o => o
  | .breakExpr => .ok .breakV h
  | .returnStmt valueE =>
    match valueE with
    | none => .ok (.returnV .nullV) h
    | some e =>
      match r (.evalNode e) sid h with
      | .ok v h1 => .ok (.returnV v) h1
      | o => o

/-- One evaluation step for the remaining task shapes: statement sequencing
(`evaluateProgram`, `if` bodies), function bodies with the `Return` check,
loop bodies with the `Break` check, the loop iteration schemes, argument
lists and the else-if chain. -/
def taskStep (r : Task → Nat → Heap → Outcome) (task : Task) (sid : Nat)
    (h : Heap) : Outcome :=
  match task with
  | .evalNode node => evaluateNodeK r node sid h
  | .seqStmts stmts result =>
    match stmts with
    | [] => .ok result h
    | stmt :: rest =>
      match r (.evalNode stmt) sid h with
      | .ok rv h1 => r (.seqStmts rest rv) sid h1
      | o => o
  | .funcBody stmts result =>
    match stmts with
    | [] => .ok result h
    | stmt :: rest =>
      match r (.evalNode stmt) sid h with
      | .ok rv h1 =>
        match rv with
        | .returnV v => .ok v h1
        | _ => r (.funcBody rest rv) sid h1
      | o => o
  | .loopBody stmts result =>
    match stmts with
    | [] => .ok result h
    | stmt :: rest =>
      match r (.evalNode stmt) sid h with
      | .ok rv h1 =>
        if rv.nodeType = .breakExpression then .ok rv h1
        else r (.loopBody rest rv) sid h1
      | o => o
  | .whileLoop cond body condVal result =>
    if isTruthy condVal then
      match r (.loopBody body result) sid h with
      | .ok rv h1 =>
        if rv.nodeType = .breakExpression then .ok .nullV h1
        else
          match r (.evalNode cond) sid h1 with
          | .ok cv h2 => r (.whileLoop cond body cv rv) sid h2
          | o => o
      | o => o
    else .ok result h
  | .infiniteLoop body result =>
    match r (.loopBody body result) sid h with
    | .ok rv h1 =>
      if rv.nodeType = .breakExpression then .ok .nullV h1
      else r (.infiniteLoop body rv) sid h1
    | o => o
  | .rangeLoop loopVar toV inc goingForward body current result =>
    if goingForward ∧ toV.ltb current then .ok result h
    else if ¬goingForward ∧ current.ltb toV then .ok result h
    else
      match scopeAssign h sid loopVar (.numericV current) with
      | .error m => .fatal m
      | .ok h1 =>
        match r (.loopBody body result) sid h1 with
        | .ok rv h2 =>
          if rv.nodeType = .breakExpression then .ok .nullV h2
          else
            r (.rangeLoop loopVar toV inc goingForward body (current.add inc) rv)
              sid h2
        | o => o
  | .forEachLoop loopVar elems body result =>
    match elems with
    | [] => .ok result h
    | e :: rest =>
      match r (.loopBody body result) sid (scopeSetVarDirect h sid loopVar e) with
      | .ok rv h2 =>
        if rv.nodeType = .breakExpression then .ok .nullV h2
        else r (.forEachLoop loopVar rest body rv) sid h2
      | o => o
  | .evalList nodes acc =>
    match nodes with
    | [] => .ok (.arrayV acc) h
    | e :: rest =>
      match r (.evalNode e) sid h with
      | .ok v h1 => r (.evalList rest (acc ++ [v])) sid h1
      | o => o
  | .elseIfChain clauses elseBody =>
    match clauses with
    | [] =>
      if elseBody.length ≠ 0 then r (.seqStmts elseBody .nullV) sid h
      else .ok .nullV h
    | (c, b) :: rest =>
      match r (.evalNode c) sid h with
      | .ok cv h1 =>
        if isTruthy cv then r (.seqStmts b .nullV) sid h1
        else r (.elseIfChain rest elseBody) sid h1
      | o => o

/-- The evaluator: consume one unit of fuel per step and defer to
`taskStep` with the next-smaller fuel for every sub-evaluation. -/
def run : Nat → Task → Nat → Heap → Outcome
  | 0, _, _, _ => .timeout
  | fuel + 1, task, sid, h => taskStep (run fuel) task sid h

/-- `interpreter.Evaluate` on a single node. -/
def evalExpr (fuel : Nat) (node : Expr) (sid : Nat) (h : Heap) : Outcome :=
  run fuel (.evalNode node) sid h

/-- The root scope.  The built-in constants and native functions installed at
startup are not used by any claim and are omitted. -/
def globalHeap : Heap := [⟨none, [], []⟩]

/-- `interpreter.evaluateProgram` against a fresh global scope. -/
def runProgram (stmts : List Expr) (fuel : Nat) : Outcome :=
  run fuel (.seqStmts stmts .nullV) 0 globalHeap

/-- The terminal value of a program run, when the run succeeds. -/
def runValue (stmts : List Expr) (fuel : Nat) : Option Value :=
  match runProgram stmts fuel with
  | .ok v _ => some v
  | _ => none

/-- The final value of a global variable after a program run. -/
def runVar (stmts : List Expr) (fuel : Nat) (name : String) : Option Value :=
  match runProgram stmts fuel with
  | .ok _ h =>
    match scopeGet h 0 name with
    | .ok v => some v
    | .error _ => none
  | _ => none

/-! ## Object construction (`interpreter.evaluateObject`, `values.ObjectValue`) -/

/-- The runtime property storage of an object: a Go map
(`ObjectValue.Properties : map[string]RuntimeValue`).  A Go map determines
only the key→value function; its iteration order is unspecified (and
deliberately randomized), so the map records no insertion order. -/
def ObjectProperties := String → Option Value

/-- `make(map[string]values.RuntimeValue)`. -/
def emptyProperties : ObjectProperties := fun _ => none

/-- `properties[property.Key] = value`. -/
def mapInsert (m : ObjectProperties) (k : String) (v : Value) :
    ObjectProperties :=
  fun k' => if k' = k then some v else m k'

/-- `interpreter.evaluateObject` applied to already-evaluated property
values: write each property, in source order, into a fresh Go map. -/
def evaluateObjectProperties (props : List (String × Value)) :
    ObjectProperties :=
  props.foldl (fun m p => mapInsert m p.1 p.2) emptyProperties

/-! ## Array `pop` (`builtins.ArrayPopMethod`) -/

/-- `builtins.ArrayPopMethod`: fatal on an empty receiver, otherwise read
the last element, shrink the slice by one, and return the element.  The Go
method mutates the array in place; the state change is returned as the new
element slice. -/
def arrayPop (elements : List Value) : Except String (Value × List Value) :=
  if elements.length = 0 then .error "Cannot pop from empty array"
  else
    let lastIndex := elements.length - 1
    .ok (elements.getD lastIndex .nullV, elements.take lastIndex)

/-! ## Import resolution (`imports` package) -/

/-- A top-level statement as seen by the import resolver: an
`ImportStatement` or any other statement (abstracted to a tag). -/
inductive IStmt where
  | importStmt (path : String)
  | plain (tag : Nat)
deriving DecidableEq, Repr

/-- The filesystem: resolved path ↦ parsed top-level statements of that
file; `none` when `os.ReadFile` fails. -/
def FileSys := String → Option (List IStmt)

/-- `filepath.IsAbs`: the path starts with a separator. -/
def isAbsPath (p : String) : Bool :=
  match p.data with
  | [] => false
  | c :: _ => c == '/'

/-- `filepath.Join` (path cleaning is not modeled). -/
def pathJoin (dir p : String) : String := dir ++ "/" ++ p

/-- `filepath.Abs`: canonicalize against the process working directory,
modeled as the fixed prefix `/cwd`. -/
def filepathAbs (p : String) : String :=
  if isAbsPath p then p else pathJoin "/cwd" p

/-- `filepath.Dir`: the path up to (excluding) the last separator, `"."`
when there is none. -/
def filepathDir (p : String) : String :=
  let r := p.data.reverse.dropWhile (fun c => c != '/')
  match r with
  | [] => "."
  | _ :: rest => String.mk rest.reverse

/-- Go `strings.HasSuffix`. -/
def hasSuffix (p suffix : String) : Bool :=
  suffix.data.isSuffixOf p.data

/-- `imports.resolveImportPath`: append `.gloob` unless a known suffix is
present; keep absolute paths; otherwise join onto the base directory. -/
def resolveImportPath (importPath baseDir : String) : String :=
  let p :=
    if hasSuffix importPath ".gloob" || hasSuffix importPath ".gb" then importPath
    else importPath ++ ".gloob"
  if isAbsPath p then p else pathJoin baseDir p

/-- Result of an import-resolution pass: the flattened statements plus the
final visited set, an error, or recursion fuel exhaustion. -/
inductive ImpResult where
  | ok (stmts : List IStmt) (visited : List String)
  | err (msg : String)
  | fuelOut
deriving DecidableEq, Repr

/-- `imports.processStatementsWithImports`: walk the statements; resolve
each import, fail when its canonical absolute path was already visited,
otherwise mark it visited (never unmarked — the `delete` is commented out
in the source) and splice the recursively processed file in place. -/
def processStatementsWithImports (fs : FileSys) :
    Nat → List IStmt → String → List String → ImpResult
  | 0, _, _, _ => .fuelOut
  | _ + 1, [], _, visited => .ok [] visited
  | fuel + 1, stmt :: rest, baseDir, visited =>
    match stmt with
    | .plain t =>
      match processStatementsWithImports fs fuel rest baseDir visited with
      | .ok r vis => .ok (.plain t :: r) vis
      | o => o
    | .importStmt p =>
      let importPath := resolveImportPath p baseDir
      let absPath := filepathAbs importPath
      if absPath ∈ visited then .err "circular import detected"
      else
        match fs importPath with
        | none => .err "failed to read file"
        | some fileStmts =>
          match
            processStatementsWithImports fs fuel fileStmts
              (filepathDir importPath) (absPath :: visited) with
          | .ok imported vis2 =>
            match processStatementsWithImports fs fuel rest baseDir vis2 with
            | .ok r vis3 => .ok (imported ++ r) vis3
            | o => o
          | o => o

/-! ## Concrete programs and fixtures used by the theorems -/

/-- Lexical (not dynamic) scoping test: `f` captures the global scope, so a
local `x` of the caller `g` must not be visible in `f`'s body. -/
def c1progClosure : List Expr := [
  .varDecl false "x" (some (.numericLit (gn 10))),
  .funDecl "f" [] [.identifier "x"],
  .funDecl "g" [] [.varDecl false "x" (some (.numericLit (gn 20))),
                   .callExpr (.identifier "f") []],
  .callExpr (.identifier "g") []
]

/-- Argument evaluation order test: with `a = 1`, left-to-right evaluation
of `f(a = a + 1, a = a * 10)` passes `2` and `20` (sum `22`) and leaves
`a = 20`. -/
def c1progArgs : List Expr := [
  .varDecl false "a" (some (.numericLit (gn 1))),
  .funDecl "f" ["x", "y"] [.binary (.identifier "x") "+" (.identifier "y")],
  .callExpr (.identifier "f") [
    .assignIdent "a" (.binary (.identifier "a") "+" (.numericLit (gn 1))),
    .assignIdent "a" (.binary (.identifier "a") "*" (.numericLit (gn 10)))]
]

/-- Implicit return test: a body with no `return` yields its last
statement's value. -/
def c1progImplicit : List Expr := [
  .funDecl "f" [] [.numericLit (gn 1), .numericLit (gn 2)],
  .callExpr (.identifier "f") []
]

/-- Early return test: statements after the first `return` are not
evaluated (`c` stays `0`). -/
def c1progEarly : List Expr := [
  .varDecl false "c" (some (.numericLit (gn 0))),
  .funDecl "f" [] [.returnStmt (some (.numericLit (gn 1))),
                   .assignIdent "c" (.numericLit (gn 99))],
  .callExpr (.identifier "f") []
]

/-- `(c = 0) && (c = 2)`: with short-circuiting the right assignment would
be skipped; the interpreter evaluates it, leaving `c = 2`. -/
def c5progAnd : List Expr := [
  .varDecl false "c" (some (.numericLit (gn 0))),
  .binary (.assignIdent "c" (.numericLit (gn 0))) "&&"
    (.assignIdent "c" (.numericLit (gn 2)))
]

/-- `(a = 1) || (a = 2)`: with short-circuiting the right assignment would
be skipped after the truthy left operand; the interpreter leaves `a = 2`. -/
def c5progOr : List Expr := [
  .varDecl false "a" (some (.numericLit (gn 0))),
  .binary (.assignIdent "a" (.numericLit (gn 1))) "||"
    (.assignIdent "a" (.numericLit (gn 2)))
]

/-- A two-scope heap for the `c7_scope_discipline` witness: the root scope
defines `x` and the constant `k`; scope 1 is a child defining `y`. -/
def c7Heap : Heap :=
  [⟨none, [("x", .numericV (gn 1)), ("k", .numericV (gn 9))], ["k"]⟩,
   ⟨some 0, [("y", .nullV)], []⟩]

/-- A diamond-shaped (acyclic) import graph: the root imports `a` and `b`,
and both import `shared`. -/
def diamondFs : FileSys := fun p =>
  if p = "/proj/a.gloob" then some [.importStmt "shared"]
  else if p = "/proj/b.gloob" then some [.importStmt "shared"]
  else if p = "/proj/shared.gloob" then some [.plain 0]
  else none

/-- A single imported file `a` containing one plain statement. -/
def spliceFs : FileSys := fun p =>
  if p = "/proj/a.gloob" then some [.plain 10]
  else none

/-- The two-property literal `{ b: 1, a: 2 }` (insertion order `b`, `a`). -/
def c9objBA : List (String × Value) := [("b", .numericV (gn 1)), ("a", .numericV (gn 2))]

/-- The two-property literal `{ a: 2, b: 1 }` (insertion order `a`, `b`). -/
def c9objAB : List (String × Value) := [("a", .numericV (gn 2)), ("b", .numericV (gn 1))]

/-- The statement `return 1`. -/
def retOne : Expr := .returnStmt (some (.numericLit (gn 1)))

/-- An infinite loop whose body is `return 1`. -/
def c3infLoop : Expr := .loopStmt false "" none none none none [retOne]

/-- A function whose while-loop body executes `return 42` and then an
assignment; the loop ignores the Return sentinel, so the call returns the
value of the loop's last statement (3), not 42. -/
def c3progReturnIgnored : List Expr := [
  .varDecl false "i" (some (.numericLit (gn 0))),
  .funDecl "f" [] [
    .loopStmt false "" (some (.binary (.identifier "i") "<" (.numericLit (gn 3))))
      none none none
      [.returnStmt (some (.numericLit (gn 42))),
       .assignIdent "i" (.binary (.identifier "i") "+" (.numericLit (gn 1)))]],
  .callExpr (.identifier "f") []]

/-- The same loop with the `return 42` as the loop body's last statement:
the loop still runs all three iterations, and only then does the Return
sentinel propagate out of the loop and get unwrapped by the call. -/
def c3progReturnLast : List Expr := [
  .varDecl false "i" (some (.numericLit (gn 0))),
  .funDecl "f" [] [
    .loopStmt false "" (some (.binary (.identifier "i") "<" (.numericLit (gn 3))))
      none none none
      [.assignIdent "i" (.binary (.identifier "i") "+" (.numericLit (gn 1))),
       .returnStmt (some (.numericLit (gn 42)))]],
  .callExpr (.identifier "f") []]

/-- `loop i from 0 to 0 : 0 { 1 }` — equal bounds with an explicit zero
increment. -/
def c4zero : List Expr := [
  .loopStmt false "i" none (some (.numericLit (gn 0))) (some (.numericLit (gn 0)))
    (some (.numericLit (gn 0))) [.numericLit (gn 1)]]

/-- The same loop with increment `1` instead of `0`. -/
def c4zeroInc1 : List Expr := [
  .loopStmt false "i" none (some (.numericLit (gn 0))) (some (.numericLit (gn 0)))
    (some (.numericLit (gn 1))) [.numericLit (gn 1)]]

/-- The heap after the loop variable `i` has been installed in the global
scope by the range-loop prologue. -/
def c4zeroHeap : Heap := [⟨none, [("i", .numericV (gn 0))], []⟩]

/-- `loop i from 10 to 6 : -2` counting iterations in `c` and summing `i`
in `s`. -/
def c4dir : List Expr := [
  .varDecl false "c" (some (.numericLit (gn 0))),
  .varDecl false "s" (some (.numericLit (gn 0))),
  .loopStmt false "i" none (some (.numericLit (gn 10))) (some (.numericLit (gn 6)))
    (some (.numericLit (gn (-2))))
    [.assignIdent "c" (.binary (.identifier "c") "+" (.numericLit (gn 1))),
     .assignIdent "s" (.binary (.identifier "s") "+" (.identifier "i"))]]

/-- `loop i from 5 to 5` (default increment). -/
def c4eqDefault : List Expr := [
  .varDecl false "c" (some (.numericLit (gn 0))),
  .loopStmt false "i" none (some (.numericLit (gn 5))) (some (.numericLit (gn 5))) none
    [.assignIdent "c" (.binary (.identifier "c") "+" (.numericLit (gn 1)))]]

/-- `loop i from 5 to 5 : -3`. -/
def c4eqNeg : List Expr := [
  .varDecl false "c" (some (.numericLit (gn 0))),
  .loopStmt false "i" none (some (.numericLit (gn 5))) (some (.numericLit (gn 5)))
    (some (.numericLit (gn (-3))))
    [.assignIdent "c" (.binary (.identifier "c") "+" (.numericLit (gn 1)))]]

/-- `loop i from 1 to 3` (forward, default increment). -/
def c4fwd : List Expr := [
  .varDecl false "c" (some (.numericLit (gn 0))),
  .loopStmt false "i" none (some (.numericLit (gn 1))) (some (.numericLit (gn 3))) none
    [.assignIdent "c" (.binary (.identifier "c") "+" (.numericLit (gn 1)))]]

/-- `loop i from "h" to 1` — a non-numeric `from` bound. -/
def c4bad : List Expr := [
  .loopStmt false "i" none (some (.stringLit [104])) (some (.numericLit (gn 1))) none []]

/-! ## Claim C1: user-function call semantics -/

/-- C1: calling a user-defined function checks the arity first (fatal
mismatch), then evaluates the arguments left to right, runs the body in a
fresh child scope of the function's captured scope (not of the caller's
scope) with the parameters declared there, unwraps the first body statement
that yields a `Return(v)` sentinel, and otherwise returns the last
evaluated statement's value (implicit return; `Null` for an empty body).
Also verified on concrete programs: lexical closure capture, left-to-right
argument effects, implicit return, and non-evaluation of statements after a
`return`. -/
theorem c1_call_semantics :
    (∀ (fuel sid : Nat) (h h1 : Heap) (callee : Expr) (args : List Expr)
        (nm : String) (ps : List String) (body : List Expr) (cap : Nat),
      run fuel (.evalNode callee) sid h = .ok (.functionV nm ps body cap) h1 →
      args.length ≠ ps.length →
      run (fuel + 1) (.evalNode (.callExpr callee args)) sid h
        = .fatal "Function arity mismatch") ∧
    (∀ (fuel sid : Nat) (h h1 h2 : Heap) (callee : Expr) (args : List Expr)
        (nm : String) (ps : List String) (body : List Expr) (cap : Nat)
        (argVals : List Value),
      run fuel (.evalNode callee) sid h = .ok (.functionV nm ps body cap) h1 →
      run fuel (.evalList args []) sid h1 = .ok (.arrayV argVals) h2 →
      args.length = ps.length →
      run (fuel + 1) (.evalNode (.callExpr callee args)) sid h
        = (match declareParams ps argVals h2.length (h2 ++ [⟨some cap, [], []⟩]) with
           | .ok h4 => run fuel (.funcBody body .nullV) h2.length h4
           | .error m => .fatal m)) ∧
    (∀ (fuel sid : Nat) (h h1 : Heap) (stmt : Expr) (rest : List Expr)
        (acc v : Value),
      run fuel (.evalNode stmt) sid h = .ok (.returnV v) h1 →
      run (fuel + 1) (.funcBody (stmt :: rest) acc) sid h = .ok v h1) ∧
    (∀ (fuel sid : Nat) (h h1 : Heap) (stmt : Expr) (rest : List Expr)
        (acc r : Value),
      run fuel (.evalNode stmt) sid h = .ok r h1 →
      (∀ v, r ≠ .returnV v) →
      run (fuel + 1) (.funcBody (stmt :: rest) acc) sid h
        = run fuel (.funcBody rest r) sid h1) ∧
    (∀ (fuel sid : Nat) (h : Heap) (acc : Value),
      run (fuel + 1) (.funcBody [] acc) sid h = .ok acc h) ∧
    (runValue c1progClosure 50 = some (.numericV (gn 10))) ∧
    (runValue c1progArgs 50 = some (.numericV (gn 22)) ∧
      runVar c1progArgs 50 "a" = some (.numericV (gn 20))) ∧
    (runValue c1progImplicit 50 = some (.numericV (gn 2))) ∧
    (runValue c1progEarly 50 = some (.numericV (gn 1)) ∧
      runVar c1progEarly 50 "c" = some (.numericV (gn 0))) := by
  refine ⟨?_, ?_, ?_, ?_, ?_, rfl, ⟨rfl, rfl⟩, rfl, ⟨rfl, rfl⟩⟩
  · intro fuel sid h h1 callee args nm ps body cap hc hne
    simp only [run]
    delta taskStep evaluateNodeK
    dsimp only
    rw [hc]
    dsimp only
    rw [if_pos hne]
  · intro fuel sid h h1 h2 callee args nm ps body cap argVals hc hargs hlen
    simp only [run]
    delta taskStep evaluateNodeK
    dsimp only
    rw [hc]
    dsimp only
    rw [if_neg (by simp [hlen]), hargs]
  · intro fuel sid h h1 stmt rest acc v hs
    simp only [run]
    delta taskStep
    dsimp only
    rw [hs]
  · intro fuel sid h h1 stmt rest acc r hs hr
    simp only [run]
    delta taskStep
    dsimp only
    rw [hs]
    cases r <;> simp_all
  · intro fuel sid h acc
    simp only [run]
    delta taskStep
    dsimp only

/-- Witness for `c1_call_semantics`: the arity error and the return unwrap
at concrete inputs. -/
theorem c1_call_semantics_witness :
    (run 2 (.evalNode (.callExpr (.identifier "f") [.nullLit])) 0
        [⟨none, [("f", .functionV "f" [] [] 0)], []⟩]
      = .fatal "Function arity mismatch") ∧
    (run 3 (.funcBody [.returnStmt (some (.numericLit (gn 7))), .breakExpr] .nullV) 0
        globalHeap
      = .ok (.numericV (gn 7)) globalHeap) := by
  constructor
  · exact c1_call_semantics.1 1 0 _ _ (.identifier "f") [.nullLit] "f" [] [] 0 rfl
      (by decide)
  · exact c1_call_semantics.2.2.1 2 0 globalHeap globalHeap
      (.returnStmt (some (.numericLit (gn 7)))) [.breakExpr] .nullV
      (.numericV (gn 7)) rfl

/-! ## Claim C2: 1-based indexing of arrays and strings -/

/-- C2: for a `Numeric` index `i` (truncated toward zero), `A[i]` with
`1 ≤ trunc i ≤ len A` returns the element at 0-based position
`trunc i − 1`; any other `i` is a fatal out-of-bounds error; strings index
their bytes the same way, yielding a length-one string; indexing a receiver
that is neither an array nor a string is fatal. -/
theorem c2_one_based_indexing (elements : List Value) (s : GoString) (q : GoNum) :
    (1 ≤ q.trunc → q.trunc ≤ (elements.length : Int) →
      evaluateArrayIndexValue (.arrayV elements) (.numericV q)
        = .ok (elements.getD (q.trunc - 1).toNat .nullV)) ∧
    (q.trunc < 1 ∨ (elements.length : Int) < q.trunc →
      evaluateArrayIndexValue (.arrayV elements) (.numericV q)
        = .error (.fatal "Array index out of bounds")) ∧
    (1 ≤ q.trunc → q.trunc ≤ (s.length : Int) →
      evaluateArrayIndexValue (.stringV s) (.numericV q)
        = .ok (.stringV [s.getD (q.trunc - 1).toNat 0])) ∧
    (q.trunc < 1 ∨ (s.length : Int) < q.trunc →
      evaluateArrayIndexValue (.stringV s) (.numericV q)
        = .error (.fatal "String index out of bounds")) ∧
    (∀ v : Value, v.nodeType ≠ .array → v.nodeType ≠ .stringTag →
      evaluateArrayIndexValue v (.numericV q) = .error (.fatal "Cannot index type")) := by
  refine ⟨?_, ?_, ?_, ?_, ?_⟩
  · intro h1 h2
    simp only [evaluateArrayIndexValue]
    rw [if_neg (by omega)]
  · intro h
    simp only [evaluateArrayIndexValue]
    rw [if_pos (by omega)]
  · intro h1 h2
    simp only [evaluateArrayIndexValue]
    rw [if_neg (by omega)]
  · intro h
    simp only [evaluateArrayIndexValue]
    rw [if_pos (by omega)]
  · intro v hv1 hv2
    cases v <;> simp_all [Value.nodeType, evaluateArrayIndexValue]

/-- Witness for `c2_one_based_indexing`: `[10, 20][2] = 20` (with the
fractional index `2.5` truncating to `2`), `[10, 20][3]` fatal,
`"hey"[1] = "h"` on bytes, and indexing `null` fatal. -/
theorem c2_one_based_indexing_witness :
    (evaluateArrayIndexValue (.arrayV [.numericV (gn 10), .numericV (gn 20)])
        (.numericV ⟨5, 2⟩) = .ok (.numericV (gn 20))) ∧
    (evaluateArrayIndexValue (.arrayV [.numericV (gn 10), .numericV (gn 20)])
        (.numericV (gn 3)) = .error (.fatal "Array index out of bounds")) ∧
    (evaluateArrayIndexValue (.stringV [104, 101, 121]) (.numericV (gn 1))
      = .ok (.stringV [104])) ∧
    (evaluateArrayIndexValue .nullV (.numericV (gn 1))
      = .error (.fatal "Cannot index type")) := by
  refine ⟨?_, ?_, ?_, ?_⟩
  · exact (c2_one_based_indexing [.numericV (gn 10), .numericV (gn 20)] [] ⟨5, 2⟩).1
      (by decide) (by decide)
  · exact (c2_one_based_indexing [.numericV (gn 10), .numericV (gn 20)] [] (gn 3)).2.1
      (by decide)
  · exact (c2_one_based_indexing [] [104, 101, 121] (gn 1)).2.2.1 (by decide) (by decide)
  · exact (c2_one_based_indexing [] [] (gn 1)).2.2.2.2 .nullV (by decide) (by decide)

/-! ## Claim C5: logical operators evaluate both operands and coerce by
truthiness -/

/-- C5: `&&` and `||` coerce each operand with the truthiness rule
(Null → false, Boolean b → b, Numeric n → n ≠ 0, String s → s ≠ "", every
other value → true) and return the Boolean conjunction/disjunction; both
operand expressions are evaluated — the concrete programs show the right
operand's side effect occurring even when the left operand already decides
the result. -/
theorem c5_logical_operators :
    (∀ lv rv, evaluateBinaryOp "&&" lv rv = .ok (.booleanV (isTruthy lv && isTruthy rv))) ∧
    (∀ lv rv, evaluateBinaryOp "||" lv rv = .ok (.booleanV (isTruthy lv || isTruthy rv))) ∧
    (isTruthy .nullV = false) ∧
    (∀ b, isTruthy (.booleanV b) = b) ∧
    (∀ q : GoNum, 0 < q.den → (isTruthy (.numericV q) = true ↔ q.toRat ≠ 0)) ∧
    (∀ s : GoString, isTruthy (.stringV s) = true ↔ s ≠ []) ∧
    (∀ es, isTruthy (.arrayV es) = true) ∧
    (∀ n p b c, isTruthy (.functionV n p b c) = true) ∧
    (runVar c5progAnd 30 "c" = some (.numericV (gn 2)) ∧
      runValue c5progAnd 30 = some (.booleanV false)) ∧
    (runVar c5progOr 30 "a" = some (.numericV (gn 2)) ∧
      runValue c5progOr 30 = some (.booleanV true)) := by
  refine ⟨fun lv rv => rfl, fun lv rv => rfl, rfl, fun b => by simp [isTruthy], ?_,
    fun s => by simp [isTruthy], fun es => rfl, fun n p b c => rfl,
    ⟨rfl, rfl⟩, ⟨rfl, rfl⟩⟩
  intro q hq
  have hd : (q.den : ℚ) ≠ 0 := by exact_mod_cast hq.ne'
  simp only [isTruthy, GoNum.isZero, GoNum.toRat, Bool.not_eq_eq_eq_not, Bool.not_true,
    beq_eq_false_iff_ne, ne_eq, div_eq_zero_iff, hd, or_false]
  constructor
  · intro hn hc
    exact hn (by exact_mod_cast hc)
  · intro hn hc
    exact hn (by exact_mod_cast hc)

/-- Witness for `c5_logical_operators`: the numeric truthiness rule at a
concrete nonzero value. -/
theorem c5_logical_operators_witness :
    (0 : Int) < (gn 5).den ∧ (isTruthy (.numericV (gn 5)) = true ↔ (gn 5).toRat ≠ 0) :=
  ⟨by decide, c5_logical_operators.2.2.2.2.1 (gn 5) (by decide)⟩

/-! ## Claim C6: numeric `/` and `%` -/

/-- C6 counterexample: `1 % 0.5` does not yield a Numeric remainder — the
divisor's truncation is `0` and Go's integer remainder panics at runtime
(the claim asserted `%` succeeds for every divisor, including those whose
truncation is 0). -/
theorem c6_mod_zero_counterexample :
    evaluateNumericBinaryExpression "%" (gn 1) ⟨1, 2⟩
      = .error (.goPanic "integer divide by zero") := rfl

/-- C6 (amended): `a / b` is a fatal error when the float value of `b` is
zero and otherwise yields the exact quotient; `a % b` truncates both
operands toward zero and yields Go's integer remainder whenever the
truncation of `b` is nonzero, and panics (Go runtime crash, not a graceful
fatal error) when the truncation of `b` is zero. -/
theorem c6_numeric_div_mod (a b : GoNum) :
    (b.isZero = true →
      evaluateNumericBinaryExpression "/" a b = .error (.fatal "division by zero")) ∧
    (b.isZero = false →
      evaluateNumericBinaryExpression "/" a b = .ok (.numericV (a.div b))) ∧
    (0 < a.den → 0 < b.den → b.isZero = false →
      (a.div b).toRat = a.toRat / b.toRat) ∧
    (b.trunc ≠ 0 →
      evaluateNumericBinaryExpression "%" a b
        = .ok (.numericV (gn (Int.tmod a.trunc b.trunc)))) ∧
    (b.trunc = 0 →
      evaluateNumericBinaryExpression "%" a b
        = .error (.goPanic "integer divide by zero")) := by
  refine ⟨?_, ?_, ?_, ?_, ?_⟩
  · intro hz; simp [evaluateNumericBinaryExpression, hz]
  · intro hz; simp [evaluateNumericBinaryExpression, hz]
  · intro ha hb hz
    have hbn : (b.num : ℚ) ≠ 0 := by
      simp [GoNum.isZero] at hz
      exact_mod_cast hz
    have had : (a.den : ℚ) ≠ 0 := by exact_mod_cast ha.ne'
    have hbd : (b.den : ℚ) ≠ 0 := by exact_mod_cast hb.ne'
    unfold GoNum.div GoNum.toRat
    split <;> push_cast <;> field_simp
  · intro hz; simp [evaluateNumericBinaryExpression, hz]
  · intro hz; simp [evaluateNumericBinaryExpression, hz]

/-- Witness for `c6_numeric_div_mod`: `5 / 0` is the fatal division-by-zero
error, `7 / 2` is exactly `3.5`, and `7 % 2 = 1`. -/
theorem c6_numeric_div_mod_witness :
    (evaluateNumericBinaryExpression "/" (gn 5) (gn 0)
      = .error (.fatal "division by zero")) ∧
    (evaluateNumericBinaryExpression "/" (gn 7) (gn 2)
      = .ok (.numericV ((gn 7).div (gn 2)))) ∧
    ((gn 7).div (gn 2)).toRat = (gn 7).toRat / (gn 2).toRat ∧
    (evaluateNumericBinaryExpression "%" (gn 7) (gn 2)
      = .ok (.numericV (gn 1))) := by
  refine ⟨(c6_numeric_div_mod (gn 5) (gn 0)).1 (by decide),
    (c6_numeric_div_mod (gn 7) (gn 2)).2.1 (by decide),
    (c6_numeric_div_mod (gn 7) (gn 2)).2.2.1 (by decide) (by decide) (by decide), ?_⟩
  have := (c6_numeric_div_mod (gn 7) (gn 2)).2.2.2.1 (by decide)
  simpa using this

/-! ## Claim C7: scope declaration and assignment discipline -/

/-- C7: `Declare` fails with a re-declaration error whenever the name
already exists in the same scope (whatever the constness of either
binding), and otherwise installs the binding and registers constness;
`Assign` resolves the defining scope by walking the parent chain (the
resolved scope always defines the name, and a scope defining the name
resolves to itself), fails when no scope in the chain defines the name or
when the name is flagged constant in its defining scope, and otherwise
updates the defining scope's binding in place. -/
theorem c7_scope_discipline :
    (∀ (h : Heap) (sid : Nat) (sd : ScopeData) (name : String) (v v0 : Value) (c : Bool),
      h[sid]? = some sd → mapGet sd.vars name = some v0 →
      scopeDeclare h sid name v c = .error "Variable already declared") ∧
    (∀ (h : Heap) (sid : Nat) (sd : ScopeData) (name : String) (v : Value) (c : Bool),
      h[sid]? = some sd → mapGet sd.vars name = none →
      scopeDeclare h sid name v c =
        .ok (h.set sid
          { sd with
            constants := if c then name :: sd.constants else sd.constants
            vars := mapSet sd.vars name v })) ∧
    (∀ (h : Heap) (sid : Nat) (sd : ScopeData) (name : String) (fuel : Nat),
      h[sid]? = some sd → mapGet sd.vars name = none →
      scopeResolve h (fuel + 1) sid name =
        (match sd.parent with
         | some p => scopeResolve h fuel p name
         | none => none)) ∧
    (∀ (h : Heap) (fuel sid d : Nat) (name : String),
      scopeResolve h fuel sid name = some d →
      ∃ sd, h[d]? = some sd ∧ (mapGet sd.vars name).isSome) ∧
    (∀ (h : Heap) (fuel sid : Nat) (sd : ScopeData) (name : String),
      h[sid]? = some sd → (mapGet sd.vars name).isSome →
      scopeResolve h (fuel + 1) sid name = some sid) ∧
    (∀ (h : Heap) (sid : Nat) (name : String) (v : Value),
      scopeResolve h (h.length + 1) sid name = none →
      scopeAssign h sid name v = .error "Variable not found") ∧
    (∀ (h : Heap) (sid d : Nat) (sd : ScopeData) (name : String) (v : Value),
      scopeResolve h (h.length + 1) sid name = some d → h[d]? = some sd →
      name ∈ sd.constants →
      scopeAssign h sid name v = .error "Constant cannot be assigned") ∧
    (∀ (h : Heap) (sid d : Nat) (sd : ScopeData) (name : String) (v : Value),
      scopeResolve h (h.length + 1) sid name = some d → h[d]? = some sd →
      name ∉ sd.constants →
      scopeAssign h sid name v =
        .ok (h.set d { sd with vars := mapSet sd.vars name v })) := by
  refine ⟨?_, ?_, ?_, ?_, ?_, ?_, ?_, ?_⟩
  · intro h sid sd name v v0 c hsd hget
    simp [scopeDeclare, hsd, hget]
  · intro h sid sd name v c hsd hget
    simp [scopeDeclare, hsd, hget]
  · intro h sid sd name fuel hsd hget
    simp [scopeResolve, hsd, hget]
  · intro h fuel
    induction fuel with
    | zero => intro sid d name hr; simp [scopeResolve] at hr
    | succ n ih =>
      intro sid d name hr
      simp only [scopeResolve] at hr
      cases hsd : h[sid]? with
      | none => rw [hsd] at hr; simp at hr
      | some sd =>
        rw [hsd] at hr
        dsimp only at hr
        by_cases hg : (mapGet sd.vars name).isSome
        · rw [if_pos hg] at hr
          cases hr
          exact ⟨sd, hsd, hg⟩
        · rw [if_neg hg] at hr
          cases hp : sd.parent with
          | none => rw [hp] at hr; simp at hr
          | some p => rw [hp] at hr; exact ih p d name hr
  · intro h fuel sid sd name hsd hg
    simp [scopeResolve, hsd, hg]
  · intro h sid name v hr
    simp [scopeAssign, hr]
  · intro h sid d sd name v hr hsd hc
    simp [scopeAssign, hr, hsd, hc]
  · intro h sid d sd name v hr hsd hc
    simp [scopeAssign, hr, hsd, hc]

/-- Witness for `c7_scope_discipline`: re-declaring `y` in scope 1 fails,
declaring a fresh `k` in scope 1 shadows the root constant, assigning `x`
from the child updates the root binding, assigning the constant `k` fails,
assigning an unknown name fails. -/
theorem c7_scope_discipline_witness :
    scopeDeclare c7Heap 1 "y" (.numericV (gn 7)) true = .error "Variable already declared" ∧
    scopeDeclare c7Heap 1 "k" (.numericV (gn 7)) false =
      .ok (c7Heap.set 1 ⟨some 0, [("y", .nullV), ("k", .numericV (gn 7))], []⟩) ∧
    scopeAssign c7Heap 1 "x" (.numericV (gn 5)) =
      .ok (c7Heap.set 0 ⟨none, [("x", .numericV (gn 5)), ("k", .numericV (gn 9))], ["k"]⟩) ∧
    scopeAssign c7Heap 1 "k" .nullV = .error "Constant cannot be assigned" ∧
    scopeAssign c7Heap 1 "zz" .nullV = .error "Variable not found" := by
  refine ⟨?_, ?_, ?_, ?_, ?_⟩
  · exact c7_scope_discipline.1 c7Heap 1 ⟨some 0, [("y", .nullV)], []⟩ "y"
      (.numericV (gn 7)) .nullV true rfl rfl
  · exact c7_scope_discipline.2.1 c7Heap 1 ⟨some 0, [("y", .nullV)], []⟩ "k"
      (.numericV (gn 7)) false rfl rfl
  · exact c7_scope_discipline.2.2.2.2.2.2.2 c7Heap 1 0
      ⟨none, [("x", .numericV (gn 1)), ("k", .numericV (gn 9))], ["k"]⟩ "x"
      (.numericV (gn 5)) rfl rfl (by decide)
  · exact c7_scope_discipline.2.2.2.2.2.2.1 c7Heap 1 0
      ⟨none, [("x", .numericV (gn 1)), ("k", .numericV (gn 9))], ["k"]⟩ "k"
      .nullV rfl rfl (by decide)
  · exact c7_scope_discipline.2.2.2.2.2.1 c7Heap 1 "zz" .nullV rfl

/-! ## Claim C8: import resolution and the ever-growing visited set -/

/-- The visited set of an import-resolution pass only grows: no path is
removed when a file finishes processing. -/
theorem processImports_visited_mono (fs : FileSys) :
    ∀ (fuel : Nat) (stmts : List IStmt) (baseDir : String)
      (visited vis' : List String) (out : List IStmt),
      processStatementsWithImports fs fuel stmts baseDir visited = .ok out vis' →
      ∀ x ∈ visited, x ∈ vis' := by
  intro fuel
  induction fuel with
  | zero =>
    intro stmts baseDir visited vis' out hp
    simp [processStatementsWithImports] at hp
  | succ n ih =>
    intro stmts baseDir visited vis' out hp x hx
    match stmts with
    | [] =>
      simp only [processStatementsWithImports] at hp
      cases hp
      exact hx
    | .plain t :: rest =>
      cases hrec : processStatementsWithImports fs n rest baseDir visited with
      | ok r vis =>
        simp only [processStatementsWithImports, hrec] at hp
        cases hp
        exact ih rest baseDir visited _ _ hrec x hx
      | err m =>
        simp only [processStatementsWithImports, hrec] at hp
        cases hp
      | fuelOut =>
        simp only [processStatementsWithImports, hrec] at hp
        cases hp
    | .importStmt p :: rest =>
      by_cases hin : filepathAbs (resolveImportPath p baseDir) ∈ visited
      · simp only [processStatementsWithImports, if_pos hin] at hp
        cases hp
      · cases hfs : fs (resolveImportPath p baseDir) with
        | none =>
          simp only [processStatementsWithImports, if_neg hin, hfs] at hp
          cases hp
        | some fileStmts =>
          cases hr1 : processStatementsWithImports fs n fileStmts
              (filepathDir (resolveImportPath p baseDir))
              (filepathAbs (resolveImportPath p baseDir) :: visited) with
          | ok imported vis2 =>
            cases hr2 : processStatementsWithImports fs n rest baseDir vis2 with
            | ok r vis3 =>
              simp only [processStatementsWithImports, if_neg hin, hfs, hr1, hr2] at hp
              cases hp
              have hx2 : x ∈ vis2 :=
                ih fileStmts (filepathDir (resolveImportPath p baseDir))
                  (filepathAbs (resolveImportPath p baseDir) :: visited) _ _ hr1 x
                  (List.mem_cons_of_mem _ hx)
              exact ih rest baseDir vis2 _ _ hr2 x hx2
            | err m =>
              simp only [processStatementsWithImports, if_neg hin, hfs, hr1, hr2] at hp
              cases hp
            | fuelOut =>
              simp only [processStatementsWithImports, if_neg hin, hfs, hr1, hr2] at hp
              cases hp
          | err m =>
            simp only [processStatementsWithImports, if_neg hin, hfs, hr1] at hp
            cases hp
          | fuelOut =>
            simp only [processStatementsWithImports, if_neg hin, hfs, hr1] at hp
            cases hp

/-- C8: the visited set of canonical absolute paths only grows during an
resolution pass; an import whose canonical path is already in the set fails
with the circular-import error — including, concretely, a file imported a
second time from disjoint non-cyclic branches of the import graph — and a
first import splices the imported file's statements in place. -/
theorem c8_import_resolution (fs : FileSys) :
    (∀ (fuel : Nat) (stmts : List IStmt) (baseDir : String)
        (visited vis' : List String) (out : List IStmt),
      processStatementsWithImports fs fuel stmts baseDir visited = .ok out vis' →
      ∀ x ∈ visited, x ∈ vis') ∧
    (∀ (fuel : Nat) (p : String) (rest : List IStmt) (baseDir : String)
        (visited : List String),
      filepathAbs (resolveImportPath p baseDir) ∈ visited →
      processStatementsWithImports fs (fuel + 1) (.importStmt p :: rest) baseDir visited
        = .err "circular import detected") ∧
    (processStatementsWithImports diamondFs 10
        [.importStmt "a", .importStmt "b"] "/proj" []
      = .err "circular import detected") ∧
    (processStatementsWithImports spliceFs 10
        [.plain 1, .importStmt "a", .plain 2] "/proj" []
      = .ok [.plain 1, .plain 10, .plain 2] ["/proj/a.gloob"]) := by
  refine ⟨processImports_visited_mono fs, ?_, rfl, rfl⟩
  intro fuel p rest baseDir visited hin
  simp only [processStatementsWithImports]
  rw [if_pos hin]

/-- Witness for `c8_import_resolution`: a re-imported canonical path fails
at a concrete input, and a concrete pass only grows the visited set
(`"/keep"` survives). -/
theorem c8_import_resolution_witness :
    (processStatementsWithImports spliceFs 1 [.importStmt "x"] "." ["/cwd/./x.gloob"]
      = .err "circular import detected") ∧
    (("/keep" : String) ∈ ["/proj/a.gloob", "/keep"]) := by
  refine ⟨?_, ?_⟩
  · exact (c8_import_resolution spliceFs).2.1 0 "x" [] "." ["/cwd/./x.gloob"] (by decide)
  · exact (c8_import_resolution spliceFs).1 10 [.plain 1, .importStmt "a", .plain 2]
      "/proj" ["/keep"] ["/proj/a.gloob", "/keep"] [.plain 1, .plain 10, .plain 2]
      (by rfl) "/keep" (by decide)

/-! ## Claim C9: object literals and insertion order -/

/-- C9 counterexample: two object literals with the same bindings but
different insertion orders evaluate to the same runtime object (a Go map
retains no insertion order), so no enumeration of the runtime object — in
particular the printing loop — can reproduce the source order of both
literals. -/
theorem c9_insertion_order_counterexample :
    evaluateObjectProperties c9objBA = evaluateObjectProperties c9objAB ∧
    c9objBA.map Prod.fst ≠ c9objAB.map Prod.fst := by
  constructor
  · funext k
    by_cases h1 : k = "a" <;> by_cases h2 : k = "b"
    · exact absurd (h1 ▸ h2) (by decide)
    all_goals
      simp [evaluateObjectProperties, c9objBA, c9objAB, mapInsert, emptyProperties,
        List.foldl, h1, h2]
  · decide

/-- C9 (amended): the runtime object built from an object literal is an
unordered string-keyed Go map; looking up a key yields the value of the
last property with that key in source order (later writes overwrite
earlier ones), and nothing else about the source order is retained. -/
theorem c9_object_lookup (props : List (String × Value)) (k : String) :
    evaluateObjectProperties props k =
      (props.reverse.find? (fun p => p.1 == k)).map Prod.snd := by
  induction props using List.reverseRecOn with
  | nil => rfl
  | append_singleton l p ih =>
    simp only [evaluateObjectProperties, List.foldl_append, List.foldl_cons, List.foldl_nil,
      List.reverse_append, List.reverse_cons, List.reverse_nil, List.nil_append,
      List.singleton_append, List.find?_cons]
    by_cases hk : p.1 = k
    · simp [mapInsert, hk]
    · have hbeq : (p.1 == k) = false := by simp [hk]
      simp only [hbeq, mapInsert]
      rw [if_neg (by intro hh; exact hk hh.symm)]
      exact ih

/-! ## Claim C10: the array `pop` method -/

/-- C10: `pop()` on an empty array is a fatal error; on a non-empty array
it removes exactly the last element (the length shrinks by one) and
returns that element. -/
theorem c10_array_pop (elements : List Value) :
    (elements = [] → arrayPop elements = .error "Cannot pop from empty array") ∧
    (∀ l x, elements = l ++ [x] →
      arrayPop elements = .ok (x, l) ∧ l.length + 1 = elements.length) := by
  constructor
  · intro h; subst h; rfl
  · intro l x h
    subst h
    refine ⟨?_, by simp⟩
    simp only [arrayPop, List.length_append, List.length_cons, List.length_nil]
    rw [if_neg (by omega)]
    have h1 : l.length + 1 - 1 = l.length := by omega
    rw [h1]
    have h2 : (l ++ [x]).getD l.length Value.nullV = x := by
      simp [List.getD]
    rw [h2, List.take_left]

/-- Witness for `c10_array_pop`: popping `[1, 2]` yields `2` and leaves
`[1]`; popping `[]` is fatal. -/
theorem c10_array_pop_witness :
    arrayPop [] = .error "Cannot pop from empty array" ∧
    (arrayPop [Value.numericV (gn 1), Value.numericV (gn 2)]
        = .ok (Value.numericV (gn 2), [Value.numericV (gn 1)]) ∧
      [Value.numericV (gn 1)].length + 1
        = [Value.numericV (gn 1), Value.numericV (gn 2)].length) :=
  ⟨(c10_array_pop []).1 rfl,
   (c10_array_pop [Value.numericV (gn 1), Value.numericV (gn 2)]).2
     [Value.numericV (gn 1)] (Value.numericV (gn 2)) rfl⟩

/-! ## Claim C3: Return sentinels and loops -/

/-- C3 counterexample: in `c3progReturnIgnored` the function body executes
`return 42` inside a while loop, yet the call evaluates to `3` — the loop
did not stop at the Return sentinel, and the returned value was the loop's
last statement's value rather than 42. -/
theorem c3_return_in_loop_counterexample :
    runValue c3progReturnIgnored 200 = some (.numericV (gn 3)) ∧
    Value.numericV (gn 3) ≠ Value.numericV (gn 42) := by
  refine ⟨rfl, fun hc => ?_⟩
  simp [gn] at hc

/-- One unfolding step of the infinite-loop iteration scheme. -/
theorem run_infiniteLoop_step (f sid : Nat) (body : List Expr) (acc : Value) (h : Heap) :
    run (f + 1) (.infiniteLoop body acc) sid h =
      (match run f (.loopBody body acc) sid h with
       | .ok rv h1 =>
         if rv.nodeType = .breakExpression then .ok .nullV h1
         else run f (.infiniteLoop body rv) sid h1
       | o => o) := rfl

/-- Evaluating the loop body `[return 1]` yields the Return sentinel as the
body's value (the `Break` check does not fire). -/
theorem c3_loopBody_ret (g sid : Nat) (acc : Value) (h : Heap) :
    run (g + 3) (.loopBody [retOne] acc) sid h
      = .ok (.returnV (.numericV (gn 1))) h := rfl

/-- The infinite-loop iteration over the body `[return 1]` never
terminates, at any fuel. -/
theorem c3_inf_aux :
    ∀ (fuel : Nat) (acc : Value) (sid : Nat) (h : Heap),
      run fuel (.infiniteLoop [retOne] acc) sid h = .timeout := by
  intro fuel
  induction fuel with
  | zero => intro acc sid h; rfl
  | succ f ih =>
    intro acc sid h
    match f with
    | 0 => rfl
    | 1 => rfl
    | 2 => rfl
    | g + 3 =>
      rw [run_infiniteLoop_step, c3_loopBody_ret g sid acc h]
      dsimp only
      rw [if_neg (by decide)]
      exact ih _ _ _

/-- C3 (amended): loops recognize only the `Break` sentinel.  A body
statement that evaluates to `Return(v)` does not stop the loop — iteration
continues with the sentinel as the current body value — while a
break-tagged value stops it immediately; a `return` that is the body's
last statement only reaches the caller after the loop has finished all its
iterations (the concrete call returns 42 but only after the loop variable
reached 3); and a `return` inside an infinite loop never terminates the
enclosing call, at any fuel. -/
theorem c3_return_sentinel_in_loops :
    (∀ (fuel sid : Nat) (h h1 : Heap) (stmt : Expr) (rest : List Expr)
        (acc v : Value),
      run fuel (.evalNode stmt) sid h = .ok (.returnV v) h1 →
      run (fuel + 1) (.loopBody (stmt :: rest) acc) sid h
        = run fuel (.loopBody rest (.returnV v)) sid h1) ∧
    (∀ (fuel sid : Nat) (h h1 : Heap) (stmt : Expr) (rest : List Expr)
        (acc r : Value),
      run fuel (.evalNode stmt) sid h = .ok r h1 →
      r.nodeType = .breakExpression →
      run (fuel + 1) (.loopBody (stmt :: rest) acc) sid h = .ok r h1) ∧
    (runValue c3progReturnLast 200 = some (.numericV (gn 42)) ∧
      runVar c3progReturnLast 200 "i" = some (.numericV (gn 3))) ∧
    (∀ (fuel sid : Nat) (h : Heap),
      run fuel (.evalNode c3infLoop) sid h = .timeout) := by
  refine ⟨?_, ?_, ⟨rfl, rfl⟩, ?_⟩
  · intro fuel sid h h1 stmt rest acc v hs
    simp only [run]
    delta taskStep
    dsimp only
    rw [hs]
    dsimp only
    simp only [Value.nodeType]
    rw [if_neg (by decide)]
  · intro fuel sid h h1 stmt rest acc r hs hbr
    simp only [run]
    delta taskStep
    dsimp only
    rw [hs]
    dsimp only
    rw [if_pos hbr]
  · intro fuel sid h
    match fuel with
    | 0 => rfl
    | f + 1 =>
      have hstep : run (f + 1) (.evalNode c3infLoop) sid h
          = run f (.infiniteLoop [retOne] .nullV) sid h := rfl
      rw [hstep]
      exact c3_inf_aux f .nullV sid h

/-- Witness for `c3_return_sentinel_in_loops`: the Return sentinel is
skipped over and the Break value stops the body, at concrete inputs. -/
theorem c3_return_sentinel_in_loops_witness :
    (run 3 (.loopBody [retOne, .breakExpr] .nullV) 0 globalHeap
      = run 2 (.loopBody [.breakExpr] (.returnV (.numericV (gn 1)))) 0 globalHeap) ∧
    (run 2 (.loopBody [.breakExpr, retOne] .nullV) 0 globalHeap
      = .ok .breakV globalHeap) := by
  constructor
  · exact c3_return_sentinel_in_loops.1 2 0 globalHeap globalHeap retOne [.breakExpr]
      .nullV (.numericV (gn 1)) rfl
  · exact c3_return_sentinel_in_loops.2.1 1 0 globalHeap globalHeap .breakExpr [retOne]
      .nullV .breakV rfl rfl

/-! ## Claim C4: range loops -/

set_option maxRecDepth 8192 in
/-- C4 counterexample: with `from = to = 0` and the explicit increment `0`,
the range loop does not execute its body exactly once and stop — the run
is still going at fuel 300 (the amended theorem shows it never terminates),
whereas the identical loop with increment `1` finishes at the same fuel. -/
theorem c4_equal_bounds_counterexample :
    runProgram c4zero 300 = .timeout ∧
    runProgram c4zeroInc1 300 = .ok (.numericV (gn 1)) c4zeroHeap := ⟨rfl, rfl⟩

/-- One unfolding step of the range-loop iteration scheme. -/
theorem run_rangeLoop_step (f sid : Nat) (loopVar : String) (toV inc : GoNum)
    (goingForward : Bool) (body : List Expr) (current : GoNum) (result : Value)
    (h : Heap) :
    run (f + 1) (.rangeLoop loopVar toV inc goingForward body current result) sid h =
      (if goingForward ∧ toV.ltb current then .ok result h
       else if ¬goingForward ∧ current.ltb toV then .ok result h
       else
         match scopeAssign h sid loopVar (.numericV current) with
         | .error m => .fatal m
         | .ok h1 =>
           match run f (.loopBody body result) sid h1 with
           | .ok rv h2 =>
             if rv.nodeType = .breakExpression then .ok .nullV h2
             else
               run f (.rangeLoop loopVar toV inc goingForward body (current.add inc) rv)
                 sid h2
           | o => o) := rfl

/-- The loop body `[1]` evaluates to the numeric value 1. -/
theorem c4_loopBody_one (g sid : Nat) (acc : Value) (h : Heap) :
    run (g + 2) (.loopBody [.numericLit (gn 1)] acc) sid h
      = .ok (.numericV (gn 1)) h := rfl

/-- The range-loop iteration with `to = current = 0` and increment `0`
never terminates, at any fuel. -/
theorem c4_range_aux :
    ∀ (fuel : Nat) (acc : Value),
      run fuel (.rangeLoop "i" (gn 0) (gn 0) false [.numericLit (gn 1)] (gn 0) acc)
        0 c4zeroHeap = .timeout := by
  intro fuel
  induction fuel with
  | zero => intro acc; rfl
  | succ f ih =>
    intro acc
    match f with
    | 0 => rfl
    | 1 => rfl
    | g + 2 =>
      rw [run_rangeLoop_step]
      rw [if_neg (by decide), if_neg (by decide)]
      have ha : scopeAssign c4zeroHeap 0 "i" (.numericV (gn 0)) = .ok c4zeroHeap := rfl
      rw [ha]
      dsimp only
      rw [c4_loopBody_one g 0 acc c4zeroHeap]
      dsimp only
      rw [if_neg (by decide)]
      exact ih _

set_option maxRecDepth 8192 in
/-- C4 (amended): `from`, `to` and the optional increment must be Numeric
(fatal otherwise); the loop variable is installed in the current scope and
remains visible after the loop; the direction is forward iff the increment
is positive when present, else iff `from ≤ to`; the default increment is
`+1`; the body runs for `from, from+inc, …` until the next value would
overshoot `to` in the chosen direction; when `from = to` the body runs
exactly once provided the increment (when present) is nonzero — with an
explicit zero increment the loop never terminates. -/
theorem c4_range_loop :
    (∀ fuel : Nat, runProgram c4zero fuel = .timeout) ∧
    (runVar c4dir 300 "c" = some (.numericV (gn 3)) ∧
      runVar c4dir 300 "s" = some (.numericV (gn 24))) ∧
    (runVar c4eqDefault 100 "c" = some (.numericV (gn 1)) ∧
      runVar c4eqNeg 100 "c" = some (.numericV (gn 1))) ∧
    (runVar c4fwd 100 "c" = some (.numericV (gn 3)) ∧
      runVar c4fwd 100 "i" = some (.numericV (gn 3))) ∧
    (runProgram c4bad 50 = .fatal "Range loop requires numeric values") ∧
    (runProgram c4zeroInc1 300 = .ok (.numericV (gn 1)) c4zeroHeap) := by
  refine ⟨?_, ⟨rfl, rfl⟩, ⟨rfl, rfl⟩, ⟨rfl, rfl⟩, rfl, rfl⟩
  intro fuel
  match fuel with
  | 0 => rfl
  | 1 => rfl
  | 2 => rfl
  | f + 3 =>
    have hstep : runProgram c4zero (f + 3)
        = (match run (f + 1)
              (.rangeLoop "i" (gn 0) (gn 0) false [.numericLit (gn 1)] (gn 0) .nullV)
              0 c4zeroHeap with
           | .ok rv h1 => run (f + 2) (.seqStmts [] rv) 0 h1
           | o => o) := rfl
    rw [hstep, c4_range_aux (f + 1) .nullV]
